import Mathlib

/-
Shallow embedding of the ICS ingestion pipeline of this repository
(the ICS → OFC event converter: `getDateL`, `getTimeL`, `getDate`,
`icsToOFC`, `getEventsFromICS`).

Modelling conventions:
* An instant and a wall-clock value are both measured in whole minutes.
  A wall-clock value `w : Int` is "minutes since 1970-01-01T00:00 as read on
  that wall clock"; the calendar date is `fdiv w 1440` (days since epoch) and
  the time of day is `w % 1440` (minutes after midnight).  ISO rendering of
  dates and times (`toISODate` / `toISOTime`) is injective, so dates are kept
  as day numbers and times of day as minute counts.
* A timezone is a fixed UTC offset in minutes.  luxon's IANA database is a
  total map `iana : String → Int`; the ical.js `TimezoneService` registry is a
  partial map `reg : String → Option Int` (an unregistered TZID makes
  `toJSDate` throw, which the pipeline's filter catches).
* On an `ical.Time`, `timezone` is `""` for a floating (zone-less) value,
  `"Z"` for UTC, and the TZID otherwise.  ical.js resolves a floating value
  with `utcOffset() = 0`, i.e. it is read as UTC by `toUnixTime`/`toJSDate`,
  while `getDateL`/`getTimeL` substitute the canonical zone for `""`.
* JavaScript's `Date.prototype.getDay` uses the runtime environment's local
  zone; it is modelled by the offset `runtimeOffset`.  ical.js `toJSDate`
  returns the `toUnixTime` instant for timed values but builds
  `new Date(year, month - 1, day)` — RUNTIME-local midnight — for date-only
  values (`jsDateInstant`).
* `rrulestr(x.toString()).toString()` (parse/print of the recurrence rule) is
  modelled as the identity on the structured rule, which the code only ever
  edits through its BYDAY part.
* The JS object built by `Object.fromEntries` is modelled as an association
  list: one entry per key, keys in first-encounter order, the value taken
  from the last pair with that key (UID strings are treated as opaque,
  non-index keys).
-/

namespace ICS

def DEFAULT_ZONE : String := "Asia/Seoul"

def WEEK_DAYS : List String := ["MO", "TU", "WE", "TH", "FR", "SA", "SU"]

/-- Calendar date (days since the Unix epoch) of a wall-clock minute count. -/
def dateOf (w : Int) : Int := Int.fdiv w 1440

/-- Time of day (minutes after midnight) of a wall-clock minute count. -/
def todOf (w : Int) : Int := w % 1440

/-- Weekday of a wall-clock minute count, `0 = Sunday` (epoch day was a
Thursday). This is what `Date` weekday accessors return on the matching
wall clock. -/
def wdayOf (w : Int) : Int := (Int.fdiv w 1440 + 4) % 7

/-- The environment a conversion runs in: luxon's IANA zone database, the
ical.js `TimezoneService` registry, and the offset of the JS runtime's own
local zone (used by `Date.prototype.getDay`). -/
structure Env where
  iana : String → Int
  reg : String → Option Int
  runtimeOffset : Int

/-- `getDateL(tstr, tzone)`: parse the wall clock in the named zone (empty
name ↦ canonical zone, `"Z"` ↦ UTC), convert to the canonical zone, take the
date. -/
def getDateL (env : Env) (w : Int) (tzone : String) : Int :=
  let tz1 := if tzone = "" then DEFAULT_ZONE else tzone
  let tz2 := if tz1 = "Z" then "UTC" else tz1
  dateOf (w - env.iana tz2 + env.iana DEFAULT_ZONE)

/-- `getTimeL(tstr, tzone)`: like `getDateL` but extracts the time of day. -/
def getTimeL (env : Env) (w : Int) (tzone : String) : Int :=
  let tz1 := if tzone = "" then DEFAULT_ZONE else tzone
  let tz2 := if tz1 = "Z" then "UTC" else tz1
  todOf (w - env.iana tz2 + env.iana DEFAULT_ZONE)

/-- An `ical.Time`: the wall-clock reading, the zone tag (`""` floating,
`"Z"` UTC, otherwise a TZID), and the date-only flag. -/
structure ICalTime where
  wall : Int
  timezone : String
  isDate : Bool
deriving DecidableEq

/-- ical.js zone resolution: floating and UTC resolve to offset 0, any other
TZID must be found in the `TimezoneService` registry. -/
def icalOffset (env : Env) (tz : String) : Option Int :=
  if tz = "" then some 0
  else if tz = "Z" ∨ tz = "UTC" then some 0
  else env.reg tz

/-- `t.toUnixTime()` (minutes): the wall clock shifted by the resolved zone
offset.  Only ever used on times that passed `resolvable`; the `getD 0`
default is immaterial there. -/
def toUnixTime (env : Env) (t : ICalTime) : Int :=
  t.wall - (icalOffset env t.timezone).getD 0

/-- Whether `t.toJSDate()` succeeds (zone resolvable). -/
def resolvable (env : Env) (t : ICalTime) : Bool :=
  (icalOffset env t.timezone).isSome

/-- The wall clock recovered from `t.toString()` by `DateTime.fromISO`: a
date-only value prints without a time part, so it reads back as midnight. -/
def tstrWall (t : ICalTime) : Int :=
  if t.isDate then 1440 * Int.fdiv t.wall 1440 else t.wall

/-- `getDate(t)`: canonical-zone date of the instant `t.toUnixTime()`. -/
def getDate (env : Env) (t : ICalTime) : Int :=
  dateOf (toUnixTime env t + env.iana DEFAULT_ZONE)

/-- The parsed recurrence rule (`rrule` property value); the code only reads
and rewrites its `BYDAY` part. -/
structure Recur where
  freq : String
  byday : Option (List String)
deriving DecidableEq

/-- A parsed VEVENT as exposed by `ical.Event`. -/
structure ICalEvent where
  uid : String
  summary : String
  startDate : ICalTime
  endDate : ICalTime
  rrule : Option Recur
  exdates : List ICalTime
  recurrenceId : Option ICalTime
  hasEnd : Bool
deriving DecidableEq

/-- The `rrule`-typed OFC event record. -/
structure RecurringEvent where
  title : String
  id : String
  rrule : Recur
  skipDates : List Int
  startDate : Int
  allDay : Bool
  startTime : Option Int
  endTime : Option Int
deriving DecidableEq

/-- The `single`-typed OFC event record. -/
structure SingleEvent where
  title : String
  id : String
  date : Int
  endDate : Option Int
  allDay : Bool
  startTime : Option Int
  endTime : Option Int
deriving DecidableEq

/-- The OFC event tagged union (`type: "rrule" | "single"`). -/
inductive OFCEvent where
  | rrule : RecurringEvent → OFCEvent
  | single : SingleEvent → OFCEvent
deriving DecidableEq

/-- JavaScript `Array.prototype.indexOf`: first index, `-1` when absent. -/
def jsIndexOf (l : List String) (s : String) : Int :=
  match l with
  | [] => -1
  | a :: t =>
      if a = s then 0
      else
        let r := jsIndexOf t s
        if r = -1 then -1 else r + 1

/-- The instant the JS `Date` returned by `t.toJSDate()` denotes.  ical.js
has a date-only branch: for an `isDate` value it builds
`new Date(year, month - 1, day)`, i.e. RUNTIME-local midnight of the calendar
date; only for timed values is it the `toUnixTime` instant. -/
def jsDateInstant (env : Env) (t : ICalTime) : Int :=
  if t.isDate then 1440 * Int.fdiv t.wall 1440 - env.runtimeOffset
  else toUnixTime env t

/-- `day_diff = getUTCDay() - getDay()` of the start's JS date: the UTC
weekday of the `toJSDate` instant minus its weekday in the runtime's local
zone. -/
def dayDiff (env : Env) (t : ICalTime) : Int :=
  wdayOf (jsDateInstant env t) - wdayOf (jsDateInstant env t + env.runtimeOffset)

/-- One BYDAY token rewritten by the weekday rule adjuster:
`WEEK_DAYS[(WEEK_DAYS.indexOf(p) + day_diff + 7) % 7]`. -/
def shiftToken (d : Int) (p : String) : String :=
  WEEK_DAYS.getD (Int.toNat ((jsIndexOf WEEK_DAYS p + d + 7) % 7)) ("")

/-- The weekday rule adjuster applied to the rrule value: rewrite the BYDAY
tokens when `day_diff ≠ 0` and the rule has some. -/
def adjustRecur (d : Int) (r : Recur) : Recur :=
  if d ≠ 0 then
    match r.byday with
    | some l => { r with byday := some (l.map (shiftToken d)) }
    | none => r
  else r

/-- Identifier template `ics::${uid}::${date}::${kind}`. -/
def mkId (uid : String) (d : Int) (kind : String) : String :=
  "ics::" ++ uid ++ "::" ++ toString d ++ "::" ++ kind

/-- `icsToOFC`: build the canonical event record for one parsed component. -/
def icsToOFC (env : Env) (input : ICalEvent) : OFCEvent :=
  match input.rrule with
  | some r0 =>
      let allDay := input.startDate.isDate
      let exdates := input.exdates.map (fun e => getDateL env (tstrWall e) e.timezone)
      let d := dayDiff env input.startDate
      OFCEvent.rrule {
        title := input.summary
        id := mkId input.uid (getDate env input.startDate) ("recurring")
        rrule := adjustRecur d r0
        skipDates := exdates
        startDate := getDateL env (tstrWall input.startDate) input.startDate.timezone
        allDay := allDay
        startTime := if allDay then none else
          some (getTimeL env (tstrWall input.startDate) input.startDate.timezone)
        endTime := if allDay then none else
          some (getTimeL env (tstrWall input.endDate) input.startDate.timezone) }
  | none =>
      let date := getDateL env (tstrWall input.startDate) input.startDate.timezone
      let endD : Option Int :=
        if input.hasEnd then
          some (getDateL env (tstrWall input.endDate) input.endDate.timezone)
        else none
      let allDay := input.startDate.isDate
      OFCEvent.single {
        title := input.summary
        id := mkId input.uid date ("single")
        date := date
        endDate := match endD with
          | some e => if date ≠ e then some e else none
          | none => none
        allDay := allDay
        startTime := if allDay then none else
          some (getTimeL env (tstrWall input.startDate) input.startDate.timezone)
        endTime := if allDay then none else
          some (getTimeL env (tstrWall input.endDate) input.startDate.timezone) }

/-- A parsed VCALENDAR: the VTIMEZONE subcomponents (TZID with the offset the
definition denotes) and the VEVENT subcomponents, both in source order. -/
structure ICal where
  vtimezones : List (String × Int)
  vevents : List ICalEvent
deriving DecidableEq

/-- `ical.TimezoneService.register` folded over the VTIMEZONEs: later
registrations of the same TZID overwrite earlier ones. -/
def registerAll (reg : String → Option Int) (l : List (String × Int)) : String → Option Int :=
  l.foldl (fun r p => fun k => if k = p.1 then some p.2 else r k) reg

/-- The environment after the parse stage registered the input's timezones. -/
def regOf (env : Env) (cal : ICal) : Env :=
  { env with reg := registerAll env.reg cal.vtimezones }

/-- Whether `m` already holds key `k` (JS `in`-style membership). -/
def hasKey (m : List (String × OFCEvent)) (k : String) : Bool :=
  m.any (fun q => q.1 == k)

/-- JS object assignment `o[k] = v`: update the value in place if the key
exists, otherwise append a new entry. -/
def upsert (m : List (String × OFCEvent)) (k : String) (v : OFCEvent) :
    List (String × OFCEvent) :=
  if hasKey m k then m.map (fun q => if q.1 = k then (k, v) else q)
  else m ++ [(k, v)]

/-- `Object.fromEntries`: build the object by assigning each pair in order. -/
def fromEntries (l : List (String × OFCEvent)) : List (String × OFCEvent) :=
  l.foldl (fun m p => upsert m p.1 p.2) []

/-- One step of the recurrence reconciler: look the override's UID up among
the base events; skip when absent; when the base is `rrule` and the override
converted to `single`, push the override's date onto the base's `skipDates`;
otherwise warn and skip. -/
def mergeOne (m : List (String × OFCEvent)) (p : String × OFCEvent) :
    List (String × OFCEvent) :=
  match List.lookup p.1 m with
  | none => m
  | some (OFCEvent.rrule r) =>
      match p.2 with
      | OFCEvent.single s =>
          m.map (fun q =>
            if q.1 = p.1 then
              (p.1, OFCEvent.rrule { r with skipDates := r.skipDates ++ [s.date] })
            else q)
      | _ => m
  | some _ => m

/-- The VEVENTs whose start and end instants resolve (`toJSDate` does not
throw); the others are skipped. -/
def filteredEvents (env : Env) (cal : ICal) : List ICalEvent :=
  cal.vevents.filter (fun e =>
    resolvable (regOf env cal) e.startDate && resolvable (regOf env cal) e.endDate)

/-- The raw `[uid, icsToOFC(e)]` pairs of the base (non-override) events, in
source encounter order. -/
def basePairsRaw (env : Env) (cal : ICal) : List (String × OFCEvent) :=
  ((filteredEvents env cal).filter (fun e => e.recurrenceId.isNone)).map
    (fun e => (e.uid, icsToOFC (regOf env cal) e))

/-- `baseEvents = Object.fromEntries(...)`. -/
def basePairs (env : Env) (cal : ICal) : List (String × OFCEvent) :=
  fromEntries (basePairsRaw env cal)

/-- `recurrenceExceptions`: the override events paired with their UIDs, in
source encounter order. -/
def exPairs (env : Env) (cal : ICal) : List (String × OFCEvent) :=
  ((filteredEvents env cal).filter (fun e => e.recurrenceId.isSome)).map
    (fun e => (e.uid, icsToOFC (regOf env cal) e))

/-- The base events after the reconciler folded every override into them. -/
def mergedPairs (env : Env) (cal : ICal) : List (String × OFCEvent) :=
  (exPairs env cal).foldl mergeOne (basePairs env cal)

/-- The whole successful-parse pipeline: register timezones, filter
unresolvable VEVENTs, convert, reconcile, concatenate base values with the
override records, validate.  Returns the events and the post-call
environment (the mutated process-wide registry). -/
def processICS (env : Env) (validate : OFCEvent → Option OFCEvent) (cal : ICal) :
    List OFCEvent × Env :=
  (((mergedPairs env cal).map Prod.snd ++ (exPairs env cal).map Prod.snd).filterMap validate,
    regOf env cal)

/-- `getEventsFromICS`: a failed top-level parse propagates the error and
touches nothing; a successful parse runs the pipeline. -/
def getEventsFromICS (env : Env) (validate : OFCEvent → Option OFCEvent)
    (input : Except String ICal) : Except String (List OFCEvent) × Env :=
  match input with
  | Except.error e => (Except.error e, env)
  | Except.ok cal =>
      let r := processICS env validate cal
      (Except.ok r.1, r.2)

/-- The `BYDAY` tokens of the produced event's rule, when it is recurring. -/
def bydayOf : OFCEvent → Option (List String)
  | OFCEvent.rrule r => r.rrule.byday
  | OFCEvent.single _ => none

/-- The produced event's rule, when it is recurring. -/
def recurOf : OFCEvent → Option Recur
  | OFCEvent.rrule r => some r.rrule
  | OFCEvent.single _ => none

/-- The produced event's identifier. -/
def idOf : OFCEvent → String
  | OFCEvent.rrule r => r.id
  | OFCEvent.single s => s.id

/-- The produced event's start clock time (absent when all-day). -/
def startTimeOf : OFCEvent → Option Int
  | OFCEvent.rrule r => r.startTime
  | OFCEvent.single s => s.startTime

/-- The produced event's end clock time (absent when all-day). -/
def endTimeOf : OFCEvent → Option Int
  | OFCEvent.rrule r => r.endTime
  | OFCEvent.single s => s.endTime

/-- The produced event's exclusion dates (`skipDates`; empty for singles). -/
def skipDatesOf : OFCEvent → List Int
  | OFCEvent.rrule r => r.skipDates
  | OFCEvent.single _ => []

/-- Whether the produced event is a `single` record. -/
def isSingleEvt : OFCEvent → Bool
  | OFCEvent.rrule _ => false
  | OFCEvent.single _ => true

/-- The last value assigned to key `k` by the pair list `l`, scanning left to
right (`none` when no pair carries `k`): "the last-encountered one". -/
def lastBase (l : List (String × OFCEvent)) (k : String) : Option OFCEvent :=
  l.foldl (fun acc p => if p.1 = k then some p.2 else acc) none

/-- The produced event's series start date, when it is recurring. -/
def startDateOf : OFCEvent → Option Int
  | OFCEvent.rrule r => some r.startDate
  | OFCEvent.single _ => none

/-- Modelled from the spec (weekday rule adjuster): `dayShift` is the weekday
of the start instant in UTC minus its weekday in the SOURCE zone's local
calendar, mod 7 with 0 = Sunday.  The source-zone local reading of the start
instant is the authored wall clock itself. -/
def specDayShift (env : Env) (t : ICalTime) : Int :=
  (wdayOf (toUnixTime env t) - wdayOf t.wall) % 7

/-- Modelled from the spec (weekday rule adjuster): rewrite a BYDAY token to
the element of the Monday-start array at (token index + dayShift) mod 7. -/
def specShiftToken (dshift : Int) (p : String) : String :=
  WEEK_DAYS.getD (Int.toNat ((jsIndexOf WEEK_DAYS p + dshift) % 7)) ("")

/-- Concrete input for claim C1: runtime zone UTC, source zone `"SRC"` at
+540 minutes; the start instant is a UTC Monday whose source-zone wall clock
reads a Tuesday. -/
def envC1x : Env :=
  { iana := fun s => if s = "UTC" then 0 else 540,
    reg := fun s => if s = "SRC" then some 540 else if s = "UTC" then some 0 else none,
    runtimeOffset := 0 }

/-- C1 counterexample component: weekly on MO, authored in zone `"SRC"`. -/
def evC1x : ICalEvent :=
  { uid := "u", summary := "t",
    startDate := { wall := 7500, timezone := "SRC", isDate := false },
    endDate := { wall := 7560, timezone := "SRC", isDate := false },
    rrule := some { freq := "WEEKLY", byday := some ["MO"] },
    exdates := [], recurrenceId := none, hasEnd := true }

/-- Environment whose runtime zone sits at +540 while events are in UTC
(used by the C1 and C10 witnesses). -/
def envC1w : Env :=
  { iana := fun _ => 0, reg := fun _ => some 0, runtimeOffset := 540 }

/-- C1 witness component: the UTC weekday and the runtime-local weekday of
the start differ by one day. -/
def evC1w : ICalEvent :=
  { uid := "u", summary := "t",
    startDate := { wall := 8400, timezone := "Z", isDate := false },
    endDate := { wall := 8460, timezone := "Z", isDate := false },
    rrule := some { freq := "WEEKLY", byday := some ["MO"] },
    exdates := [], recurrenceId := none, hasEnd := true }

/-- C10 witness component: BYDAY holds the ordinal token `"1MO"`, which is
not one of the seven plain weekday codes. -/
def evC10w : ICalEvent :=
  { uid := "u", summary := "t",
    startDate := { wall := 8400, timezone := "Z", isDate := false },
    endDate := { wall := 8460, timezone := "Z", isDate := false },
    rrule := some { freq := "WEEKLY", byday := some ["1MO"] },
    exdates := [], recurrenceId := none, hasEnd := true }

/-- Environment for the C2 witness: zone `"X"` at +60 minutes, canonical
zone at +540. -/
def envC2w : Env :=
  { iana := fun s => if s = "X" then 60 else 540,
    reg := fun _ => none, runtimeOffset := 0 }

/-- Environment for the C3 witness: every zone at offset 0. -/
def envC3w : Env :=
  { iana := fun _ => 0, reg := fun _ => some 0, runtimeOffset := 0 }

/-- C3 witness component: a timed (non-all-day) single event. -/
def evC3w : ICalEvent :=
  { uid := "u", summary := "t",
    startDate := { wall := 600, timezone := "Z", isDate := false },
    endDate := { wall := 660, timezone := "Z", isDate := false },
    rrule := none, exdates := [], recurrenceId := none, hasEnd := true }

/-- Environment for the C5 counterexample: canonical zone at +540, UTC at 0,
runtime zone UTC. -/
def envC5x : Env :=
  { iana := fun s => if s = "UTC" then 0 else 540,
    reg := fun _ => some 0, runtimeOffset := 0 }

/-- C5 counterexample component: a recurring event with a floating (zone-less)
start late enough in the day that reading the wall clock as UTC and shifting
to the canonical zone crosses midnight. -/
def evC5x : ICalEvent :=
  { uid := "u", summary := "t",
    startDate := { wall := 1000, timezone := "", isDate := false },
    endDate := { wall := 1060, timezone := "", isDate := false },
    rrule := some { freq := "WEEKLY", byday := none },
    exdates := [], recurrenceId := none, hasEnd := true }

/-- Environment for the C5 witness: zone `"K"` at +540 in both the IANA
database and the parse registry, canonical zone at 0. -/
def envC5w : Env :=
  { iana := fun s => if s = "K" then 540 else 0,
    reg := fun s => if s = "K" then some 540 else none,
    runtimeOffset := 0 }

/-- C5 witness component: a recurring event whose start carries the explicit
zone `"K"`. -/
def evC5w : ICalEvent :=
  { uid := "u", summary := "t",
    startDate := { wall := 1000, timezone := "K", isDate := false },
    endDate := { wall := 1060, timezone := "K", isDate := false },
    rrule := some { freq := "WEEKLY", byday := none },
    exdates := [], recurrenceId := none, hasEnd := true }

/-- Environment with all offsets 0 and everything resolvable, used by the
pipeline-level concrete inputs. -/
def envZero : Env :=
  { iana := fun _ => 0, reg := fun _ => some 0, runtimeOffset := 0 }

/-- C4 counterexample input: a recurring base event and an override with the
same UID that carries its own RRULE (so the override converts to `rrule`,
not `single`). -/
def calC4x : ICal :=
  { vtimezones := [],
    vevents :=
      [{ uid := "u", summary := "b",
         startDate := { wall := 600, timezone := "Z", isDate := false },
         endDate := { wall := 660, timezone := "Z", isDate := false },
         rrule := some { freq := "WEEKLY", byday := none },
         exdates := [], recurrenceId := none, hasEnd := true },
       { uid := "u", summary := "o",
         startDate := { wall := 2040, timezone := "Z", isDate := false },
         endDate := { wall := 2100, timezone := "Z", isDate := false },
         rrule := some { freq := "DAILY", byday := none },
         exdates := [],
         recurrenceId := some { wall := 600, timezone := "Z", isDate := false },
         hasEnd := true }] }

/-- C4 witness input: a recurring base event and a plain (non-recurring)
override with the same UID one day later. -/
def calC4w : ICal :=
  { vtimezones := [],
    vevents :=
      [{ uid := "u", summary := "b",
         startDate := { wall := 600, timezone := "Z", isDate := false },
         endDate := { wall := 660, timezone := "Z", isDate := false },
         rrule := some { freq := "WEEKLY", byday := none },
         exdates := [], recurrenceId := none, hasEnd := true },
       { uid := "u", summary := "o",
         startDate := { wall := 2040, timezone := "Z", isDate := false },
         endDate := { wall := 2100, timezone := "Z", isDate := false },
         rrule := none, exdates := [],
         recurrenceId := some { wall := 600, timezone := "Z", isDate := false },
         hasEnd := true }] }

/-- The conversion of `calC4w`'s base event. -/
def rC4w : RecurringEvent :=
  { title := "b", id := "ics::u::0::recurring",
    rrule := { freq := "WEEKLY", byday := none },
    skipDates := [], startDate := 0, allDay := false,
    startTime := some 600, endTime := some 660 }

/-- The conversion of `calC4w`'s override event. -/
def sC4w : SingleEvent :=
  { title := "o", id := "ics::u::1::single", date := 1, endDate := none,
    allDay := false, startTime := some 600, endTime := some 660 }

/-- C6 counterexample input: a single override whose UID matches no base
event at all. -/
def calC6x : ICal :=
  { vtimezones := [],
    vevents :=
      [{ uid := "b", summary := "o",
         startDate := { wall := 600, timezone := "Z", isDate := false },
         endDate := { wall := 660, timezone := "Z", isDate := false },
         rrule := none, exdates := [],
         recurrenceId := some { wall := 600, timezone := "Z", isDate := false },
         hasEnd := true }] }

/-- The conversion of `calC6x`'s lone override. -/
def sC6x : SingleEvent :=
  { title := "o", id := "ics::b::0::single", date := 0, endDate := none,
    allDay := false, startTime := some 600, endTime := some 660 }

/-- C6 witness input: a recurring base event with UID `"a"` and an orphan
override with UID `"b"`. -/
def calC6w : ICal :=
  { vtimezones := [],
    vevents :=
      [{ uid := "a", summary := "b",
         startDate := { wall := 600, timezone := "Z", isDate := false },
         endDate := { wall := 660, timezone := "Z", isDate := false },
         rrule := some { freq := "WEEKLY", byday := none },
         exdates := [], recurrenceId := none, hasEnd := true },
       { uid := "b", summary := "o",
         startDate := { wall := 2040, timezone := "Z", isDate := false },
         endDate := { wall := 2100, timezone := "Z", isDate := false },
         rrule := none, exdates := [],
         recurrenceId := some { wall := 600, timezone := "Z", isDate := false },
         hasEnd := true }] }

/-- The conversion of `calC6w`'s orphan override. -/
def sC6w : SingleEvent :=
  { title := "o", id := "ics::b::1::single", date := 1, endDate := none,
    allDay := false, startTime := some 600, endTime := some 660 }

/-- Trivial input used by the C9 witness. -/
def calC9w : ICal := { vtimezones := [], vevents := [] }

/-- A throwaway event record used by the C9 witness. -/
def evC9w : OFCEvent :=
  OFCEvent.single
    { title := "o", id := "ics::c::0::single", date := 0, endDate := none,
      allDay := true, startTime := none, endTime := none }

/-- The conversion of `evC5w` (used by the C5 witness). -/
def rC5w : RecurringEvent :=
  { title := "t", id := "ics::u::0::recurring",
    rrule := { freq := "WEEKLY", byday := none },
    skipDates := [], startDate := 0, allDay := false,
    startTime := some 460, endTime := some 520 }


lemma wdayOf_nonneg (w : Int) : 0 ≤ wdayOf w := Int.emod_nonneg _ (by norm_num)

lemma wdayOf_lt (w : Int) : wdayOf w < 7 := Int.emod_lt_of_pos _ (by norm_num)

lemma shiftToken_eq_spec (d : Int) (p : String) :
    shiftToken d p = specShiftToken (d % 7) p := by
  unfold shiftToken specShiftToken
  have h : Int.toNat ((jsIndexOf WEEK_DAYS p + d + 7) % 7)
      = Int.toNat ((jsIndexOf WEEK_DAYS p + d % 7) % 7) := by omega
  rw [h]

lemma jsIndexOf_of_not_mem {l : List String} {s : String} (h : s ∉ l) :
    jsIndexOf l s = -1 := by
  induction l with
  | nil => rfl
  | cons a t ih =>
      simp only [List.mem_cons, not_or] at h
      simp only [jsIndexOf, if_neg (Ne.symm h.1), ih h.2]
      simp

lemma getD_WEEK_mem (n : Nat) (h : n < 7) : WEEK_DAYS.getD n ("") ∈ WEEK_DAYS := by
  interval_cases n <;> decide

lemma mem_shiftToken (d : Int) (p : String) : shiftToken d p ∈ WEEK_DAYS := by
  apply getD_WEEK_mem
  have h1 : 0 ≤ (jsIndexOf WEEK_DAYS p + d + 7) % 7 := Int.emod_nonneg _ (by norm_num)
  have h2 : (jsIndexOf WEEK_DAYS p + d + 7) % 7 < 7 := Int.emod_lt_of_pos _ (by norm_num)
  omega

/-- C2: the time normalizer `getDateL`/`getTimeL` treats an empty zone name
as the canonical zone (no shift at all on the wall clock), treats the literal
`"Z"` as the zone named `"UTC"`, and otherwise interprets the timestamp in
the named zone and converts it to the canonical zone before extracting the
date or time of day. -/
theorem c2_time_normalizer (env : Env) (w : Int) (tz : String) :
    (getDateL env w ("") = dateOf w ∧ getTimeL env w ("") = todOf w)
    ∧ (getDateL env w ("Z") = getDateL env w ("UTC")
        ∧ getTimeL env w ("Z") = getTimeL env w ("UTC"))
    ∧ (tz ≠ "" → tz ≠ "Z" →
        getDateL env w tz = dateOf (w - env.iana tz + env.iana DEFAULT_ZONE)
        ∧ getTimeL env w tz = todOf (w - env.iana tz + env.iana DEFAULT_ZONE)) := by
  refine ⟨⟨?_, ?_⟩, ⟨?_, ?_⟩, fun h1 h2 => ⟨?_, ?_⟩⟩
  · simp [getDateL, DEFAULT_ZONE, dateOf]
  · simp [getTimeL, DEFAULT_ZONE, todOf]
  · simp [getDateL]
  · simp [getTimeL]
  · simp [getDateL, h1, h2]
  · simp [getTimeL, h1, h2]

/-- C2 witness: `c2_time_normalizer` evaluated at zone `"X"` (+60) and wall
clock 2000: the named-zone branch yields canonical-zone day 1. -/
theorem c2_witness : getDateL envC2w 2000 ("X") = 1 := by
  have h := ((c2_time_normalizer envC2w 2000 "X").2.2 (by decide) (by decide)).1
  rw [h]; decide

/-- C3: for every non-all-day component, recurring or single, the produced
event's start and end clock times are both normalized with the START
instant's zone (`input.startDate.timezone`), expressed in the canonical zone
by `getTimeL`. -/
theorem c3_end_time_uses_start_zone (env : Env) (i : ICalEvent)
    (h : i.startDate.isDate = false) :
    startTimeOf (icsToOFC env i)
      = some (getTimeL env (tstrWall i.startDate) i.startDate.timezone)
    ∧ endTimeOf (icsToOFC env i)
      = some (getTimeL env (tstrWall i.endDate) i.startDate.timezone) := by
  cases hr : i.rrule <;> simp [icsToOFC, hr, startTimeOf, endTimeOf, h]

/-- C3 witness: `c3_end_time_uses_start_zone` evaluated on a concrete timed
single event. -/
theorem c3_witness :
    startTimeOf (icsToOFC envC3w evC3w) = some 600
    ∧ endTimeOf (icsToOFC envC3w evC3w) = some 660 := by
  have h := c3_end_time_uses_start_zone envC3w evC3w rfl
  constructor
  · rw [h.1]; decide
  · rw [h.2]; decide

/-- C1 counterexample: for the recurring component `evC1x` the spec's
`dayShift` (UTC weekday minus SOURCE-zone local weekday, mod 7) is 6, which
is non-zero, so the claim demands each BYDAY token be rotated (MO ↦ SU); but
the code computes `day_diff` against the RUNTIME zone (here UTC), gets 0,
and leaves the rule as `["MO"]`. -/
theorem c1_counterexample :
    specDayShift envC1x evC1x.startDate = 6
    ∧ (6 : Int) ≠ 0
    ∧ bydayOf (icsToOFC envC1x evC1x) = some ["MO"]
    ∧ ["MO"].map (specShiftToken 6) = ["SU"]
    ∧ (["MO"] : List String) ≠ ["SU"] := by decide

/-- C1 amended: the weekday rule adjuster computes
`dayShift = (UTC weekday − RUNTIME-local weekday) mod 7` (not the source
zone's weekday); when that shift is non-zero every BYDAY token is rewritten
to the element of the Monday-start array at (token index + dayShift) mod 7,
and when the shift is zero or there are no BYDAY tokens the rule is left
unchanged. -/
theorem c1_weekday_adjuster (env : Env) (i : ICalEvent) (r0 : Recur)
    (hr : i.rrule = some r0) :
    ((dayDiff env i.startDate) % 7 ≠ 0 →
      ∀ l, r0.byday = some l →
        bydayOf (icsToOFC env i)
          = some (l.map (specShiftToken ((dayDiff env i.startDate) % 7))))
    ∧ (((dayDiff env i.startDate) % 7 = 0 ∨ r0.byday = none) →
        recurOf (icsToOFC env i) = some r0) := by
  constructor
  · intro hd l hb
    have hd0 : dayDiff env i.startDate ≠ 0 := by
      intro h0; rw [h0] at hd; exact hd (by decide)
    simp only [icsToOFC, hr, bydayOf]
    rw [adjustRecur, if_pos hd0, hb]
    simp [shiftToken_eq_spec]
  · intro h
    rcases h with h | h
    · have h1 := wdayOf_nonneg (jsDateInstant env i.startDate)
      have h2 := wdayOf_lt (jsDateInstant env i.startDate)
      have h3 := wdayOf_nonneg (jsDateInstant env i.startDate + env.runtimeOffset)
      have h4 := wdayOf_lt (jsDateInstant env i.startDate + env.runtimeOffset)
      have hd0 : dayDiff env i.startDate = 0 := by
        have hD : dayDiff env i.startDate
            = wdayOf (jsDateInstant env i.startDate)
              - wdayOf (jsDateInstant env i.startDate + env.runtimeOffset) := rfl
        omega
      simp [icsToOFC, hr, recurOf, adjustRecur, hd0]
    · by_cases hd0 : dayDiff env i.startDate = 0 <;>
        simp [icsToOFC, hr, recurOf, adjustRecur, h, hd0]

/-- C1 witness: `c1_weekday_adjuster` evaluated where the UTC weekday and
the runtime-local weekday differ by one: BYDAY `["MO"]` becomes `["SU"]`. -/
theorem c1_witness : bydayOf (icsToOFC envC1w evC1w) = some ["SU"] := by
  have h := (c1_weekday_adjuster envC1w evC1w { freq := "WEEKLY", byday := some ["MO"] }
    rfl).1 (by decide) ["MO"] rfl
  rw [h]; decide

/-- C10: with a non-zero `day_diff`, every rewritten BYDAY token is one of
the seven codes `[MO,TU,WE,TH,FR,SA,SU]`; in particular a token that is not
one of those codes (e.g. an ordinal token `"1MO"`) goes through list index
`-1` and is mapped to the array element at `(dayShift + 6) mod 7` instead of
being kept or rejected. -/
theorem c10_invalid_byday_token (env : Env) (i : ICalEvent) (r0 : Recur) (l : List String)
    (hr : i.rrule = some r0) (hb : r0.byday = some l)
    (hd : dayDiff env i.startDate ≠ 0) :
    bydayOf (icsToOFC env i) = some (l.map (shiftToken (dayDiff env i.startDate)))
    ∧ (∀ t, shiftToken (dayDiff env i.startDate) t ∈ WEEK_DAYS)
    ∧ (∀ t, t ∉ WEEK_DAYS →
        shiftToken (dayDiff env i.startDate) t
          = WEEK_DAYS.getD (Int.toNat (((dayDiff env i.startDate) % 7 + 6) % 7)) ("")) := by
  refine ⟨?_, fun t => mem_shiftToken _ t, fun t ht => ?_⟩
  · simp only [icsToOFC, hr, bydayOf]
    rw [adjustRecur, if_pos hd, hb]
  · unfold shiftToken
    rw [jsIndexOf_of_not_mem ht]
    have h : Int.toNat ((-1 + dayDiff env i.startDate + 7) % 7)
        = Int.toNat (((dayDiff env i.startDate) % 7 + 6) % 7) := by omega
    rw [h]

/-- C10 witness: `c10_invalid_byday_token` evaluated on the ordinal token
`"1MO"` with `day_diff = -1`: the token becomes `"SA"`. -/
theorem c10_witness : bydayOf (icsToOFC envC1w evC10w) = some ["SA"] := by
  have h := (c10_invalid_byday_token envC1w evC10w { freq := "WEEKLY", byday := some ["1MO"] }
    ["1MO"] rfl rfl (by decide)).1
  rw [h]; decide

/-- C5 counterexample: for the floating-start recurring event `evC5x` the
identifier's date (wall clock read as UTC by `toUnixTime`, then shifted to
the canonical zone: day 1) differs from the event's `startDate` field (wall
clock read as the canonical zone: day 0), so the identifier is NOT built
from the date the `startDate` field carries. -/
theorem c5_counterexample :
    startDateOf (icsToOFC envC5x evC5x) = some 0
    ∧ idOf (icsToOFC envC5x evC5x) = mkId ("u") 1 ("recurring")
    ∧ mkId ("u") 1 ("recurring") ≠ mkId ("u") 0 ("recurring") := by decide

/-- C5 amended: a Single's identifier is `ics::uid::date::single` with
exactly the record's own `date`; a Recurring identifier is
`ics::uid::d::recurring` where `d` is the canonical-zone date of the start
instant (`getDate`), and that `d` coincides with the record's `startDate`
field whenever the start carries an explicit zone that resolves to the same
offset in the parse registry and the IANA database — for a floating start
the two can differ. -/
theorem c5_identifier_shape (env : Env) (i : ICalEvent) :
    (∀ s, icsToOFC env i = OFCEvent.single s → s.id = mkId i.uid s.date ("single"))
    ∧ (∀ r, icsToOFC env i = OFCEvent.rrule r →
        r.id = mkId i.uid (getDate env i.startDate) ("recurring"))
    ∧ (i.startDate.timezone ≠ "" →
        icalOffset env i.startDate.timezone
          = some (env.iana
              (if i.startDate.timezone = "Z" then "UTC" else i.startDate.timezone)) →
        i.startDate.isDate = false →
        ∀ r, icsToOFC env i = OFCEvent.rrule r → r.startDate = getDate env i.startDate) := by
  refine ⟨fun s hs => ?_, fun r hrr => ?_, fun h1 h2 h3 r hrr => ?_⟩
  · cases hr : i.rrule <;> simp [icsToOFC, hr] at hs
    · rw [← hs]
  · cases hr : i.rrule <;> simp [icsToOFC, hr] at hrr
    · rw [← hrr]
  · cases hr : i.rrule <;> simp [icsToOFC, hr] at hrr
    · rw [← hrr]
      simp [getDateL, getDate, toUnixTime, tstrWall, h1, h2, h3]

/-- C5 witness: `c5_identifier_shape` evaluated on a start with the
explicit, consistently-resolved zone `"K"`: the identifier date equals the
`startDate` field. -/
theorem c5_witness : rC5w.startDate = getDate envC5w evC5w.startDate :=
  (c5_identifier_shape envC5w evC5w).2.2 (by decide) (by decide) rfl rC5w (by decide)


lemma lookup_cons_self (k : String) (v : OFCEvent) (m : List (String × OFCEvent)) :
    List.lookup k ((k, v) :: m) = some v := by
  simp [List.lookup]

lemma lookup_cons_ne {k a : String} (h : k ≠ a) (v : OFCEvent)
    (m : List (String × OFCEvent)) :
    List.lookup k ((a, v) :: m) = List.lookup k m := by
  have hb : (k == a) = false := by simp [h]
  simp [List.lookup, hb]

lemma lookup_map_set (m : List (String × OFCEvent)) (c : String) (w : OFCEvent)
    (hs : (List.lookup c m).isSome) :
    List.lookup c (m.map (fun q => if q.1 = c then (c, w) else q)) = some w := by
  induction m with
  | nil => simp [List.lookup] at hs
  | cons q m ih =>
      obtain ⟨a, b⟩ := q
      by_cases h : a = c
      · subst h
        simp only [List.map_cons, if_pos rfl]
        exact lookup_cons_self a w _
      · rw [lookup_cons_ne (Ne.symm h)] at hs
        simp only [List.map_cons, if_neg h]
        rw [lookup_cons_ne (Ne.symm h)]
        exact ih hs

lemma lookup_map_set_ne (m : List (String × OFCEvent)) (c k : String) (w : OFCEvent)
    (h : k ≠ c) :
    List.lookup k (m.map (fun q => if q.1 = c then (c, w) else q)) = List.lookup k m := by
  induction m with
  | nil => rfl
  | cons q m ih =>
      obtain ⟨a, b⟩ := q
      by_cases ha : a = c
      · subst ha
        simp only [List.map_cons, if_pos rfl, if_true]
        rw [lookup_cons_ne h, lookup_cons_ne h]
        exact ih
      · simp only [List.map_cons, if_neg ha]
        by_cases hk : k = a
        · subst hk
          rw [lookup_cons_self, lookup_cons_self]
        · rw [lookup_cons_ne hk, lookup_cons_ne hk]
          exact ih

lemma fst_map_set (m : List (String × OFCEvent)) (c : String) (w : OFCEvent) :
    (m.map (fun q => if q.1 = c then (c, w) else q)).map Prod.fst = m.map Prod.fst := by
  rw [List.map_map]
  apply List.map_congr_left
  intro q _
  by_cases h : q.1 = c <;> simp [h]

lemma lookup_none_iff (k : String) (m : List (String × OFCEvent)) :
    List.lookup k m = none ↔ ∀ p ∈ m, p.1 ≠ k := by
  induction m with
  | nil => simp
  | cons q m ih =>
      obtain ⟨a, b⟩ := q
      by_cases h : k = a
      · subst h
        rw [lookup_cons_self]
        simp
      · rw [lookup_cons_ne h]
        rw [ih]
        simp only [List.mem_cons]
        constructor
        · rintro hall p (rfl | hp)
          · exact Ne.symm h
          · exact hall p hp
        · intro hall p hp
          exact hall p (Or.inr hp)

lemma hasKey_eq_isSome (m : List (String × OFCEvent)) (k : String) :
    hasKey m k = (List.lookup k m).isSome := by
  induction m with
  | nil => rfl
  | cons q m ih =>
      obtain ⟨a, b⟩ := q
      by_cases h : k = a
      · subst h
        rw [lookup_cons_self]
        simp [hasKey]
      · rw [lookup_cons_ne h]
        simp only [hasKey, List.any_cons]
        have hb : (a == k) = false := by simp [Ne.symm h]
        rw [hb]
        simp only [Bool.false_or]
        exact ih

lemma lookup_append_assoc (k : String) (m₁ m₂ : List (String × OFCEvent)) :
    List.lookup k (m₁ ++ m₂)
      = match List.lookup k m₁ with
        | some v => some v
        | none => List.lookup k m₂ := by
  induction m₁ with
  | nil => simp [List.lookup]
  | cons q m ih =>
      obtain ⟨a, b⟩ := q
      by_cases h : k = a
      · subst h
        rw [List.cons_append, lookup_cons_self, lookup_cons_self]
      · rw [List.cons_append, lookup_cons_ne h, lookup_cons_ne h]
        exact ih

lemma lookup_upsert_self (m : List (String × OFCEvent)) (k : String) (v : OFCEvent) :
    List.lookup k (upsert m k v) = some v := by
  unfold upsert
  by_cases h : hasKey m k
  · rw [if_pos h]
    exact lookup_map_set m k v (by rw [← hasKey_eq_isSome]; exact h)
  · rw [if_neg h]
    rw [lookup_append_assoc]
    have hn : List.lookup k m = none := by
      rw [hasKey_eq_isSome] at h
      cases hl : List.lookup k m
      · rfl
      · rw [hl] at h
        simp at h
    rw [hn, lookup_cons_self]

lemma lookup_upsert_ne (m : List (String × OFCEvent)) (k k' : String) (v : OFCEvent)
    (h : k' ≠ k) :
    List.lookup k' (upsert m k v) = List.lookup k' m := by
  unfold upsert
  by_cases hk : hasKey m k
  · rw [if_pos hk]
    exact lookup_map_set_ne m k k' v h
  · rw [if_neg hk]
    rw [lookup_append_assoc]
    cases hl : List.lookup k' m
    · rw [lookup_cons_ne h]
      rfl
    · rfl

lemma foldl_last_init {β γ : Type} (cond : γ → Prop) [DecidablePred cond] (val : γ → β)
    (l : List γ) :
    ∀ acc : Option β,
      l.foldl (fun a p => if cond p then some (val p) else a) acc
        = match l.foldl (fun a p => if cond p then some (val p) else a) none with
          | some v => some v
          | none => acc := by
  induction l with
  | nil => intro acc; rfl
  | cons p l ih =>
      intro acc
      simp only [List.foldl_cons]
      rw [ih, ih (if cond p then some (val p) else none)]
      cases hM : l.foldl (fun a p => if cond p then some (val p) else a) none with
      | some v => simp
      | none => by_cases hc : cond p <;> simp [hc]

lemma registerAll_apply (l : List (String × Int)) (r : String → Option Int) (k : String) :
    registerAll r l k = l.foldl (fun a p => if k = p.1 then some p.2 else a) (r k) := by
  induction l generalizing r with
  | nil => rfl
  | cons p l ih =>
      show registerAll (fun k' => if k' = p.1 then some p.2 else r k') l k = _
      rw [ih]
      rfl

lemma registerAll_idem (r : String → Option Int) (l : List (String × Int)) :
    registerAll (registerAll r l) l = registerAll r l := by
  funext k
  rw [registerAll_apply, registerAll_apply]
  rw [foldl_last_init (fun p => k = p.1) Prod.snd l
      (List.foldl (fun a p => if k = p.1 then some p.2 else a) (r k) l)]
  cases hM : l.foldl (fun a p => if k = p.1 then some p.2 else a) none with
  | some v =>
      simp only
      rw [foldl_last_init (fun p => k = p.1) Prod.snd l (r k), hM]
  | none => simp only

lemma foldl_upsert_lookup (l : List (String × OFCEvent)) :
    ∀ (m : List (String × OFCEvent)) (k : String),
      List.lookup k (l.foldl (fun m p => upsert m p.1 p.2) m)
        = match lastBase l k with
          | some v => some v
          | none => List.lookup k m := by
  induction l with
  | nil => intro m k; rfl
  | cons p l ih =>
      intro m k
      simp only [List.foldl_cons]
      rw [ih]
      have hlb : lastBase (p :: l) k
          = match lastBase l k with
            | some v => some v
            | none => if p.1 = k then some p.2 else none := by
        show l.foldl (fun a q => if q.1 = k then some q.2 else a)
            (if p.1 = k then some p.2 else none) = _
        rw [foldl_last_init (fun q => q.1 = k) Prod.snd l
          (if p.1 = k then some p.2 else none)]
        simp only [lastBase]
        cases List.foldl (fun a p => if p.1 = k then some p.2 else a) none l <;> rfl
      rw [hlb]
      cases hM : lastBase l k with
      | some v => rfl
      | none =>
          simp only
          by_cases hp : p.1 = k
          · rw [if_pos hp, ← hp, lookup_upsert_self]
          · rw [if_neg hp, lookup_upsert_ne m p.1 k p.2 (Ne.symm hp)]

lemma fromEntries_lookup (l : List (String × OFCEvent)) (k : String) :
    List.lookup k (fromEntries l) = lastBase l k := by
  unfold fromEntries
  rw [foldl_upsert_lookup]
  cases lastBase l k <;> rfl

lemma fst_upsert_present (m : List (String × OFCEvent)) (k : String) (v : OFCEvent)
    (h : hasKey m k = true) :
    (upsert m k v).map Prod.fst = m.map Prod.fst := by
  unfold upsert
  rw [if_pos h]
  exact fst_map_set m k v

lemma fst_upsert_absent (m : List (String × OFCEvent)) (k : String) (v : OFCEvent)
    (h : hasKey m k = false) :
    (upsert m k v).map Prod.fst = m.map Prod.fst ++ [k] := by
  unfold upsert
  rw [if_neg (by rw [h]; exact Bool.false_ne_true)]
  simp

lemma hasKey_false_not_mem (m : List (String × OFCEvent)) (k : String)
    (h : hasKey m k = false) : k ∉ m.map Prod.fst := by
  intro hk
  simp only [List.mem_map] at hk
  obtain ⟨q, hq, hfst⟩ := hk
  have : hasKey m k = true := by
    simp only [hasKey, List.any_eq_true]
    exact ⟨q, hq, by simp [hfst]⟩
  rw [h] at this
  exact Bool.false_ne_true this

lemma nodup_foldl_upsert (l : List (String × OFCEvent)) :
    ∀ m : List (String × OFCEvent), (m.map Prod.fst).Nodup →
      ((l.foldl (fun m p => upsert m p.1 p.2) m).map Prod.fst).Nodup := by
  induction l with
  | nil => intro m hm; exact hm
  | cons p l ih =>
      intro m hm
      simp only [List.foldl_cons]
      apply ih
      by_cases h : hasKey m p.1
      · rw [fst_upsert_present m p.1 p.2 h]
        exact hm
      · rw [fst_upsert_absent m p.1 p.2 (by simpa using h)]
        simp only [List.nodup_append, List.nodup_cons, List.nodup_nil]
        refine ⟨hm, ⟨by simp, trivial⟩, ?_⟩
        simp only [List.disjoint_singleton]
        exact hasKey_false_not_mem m p.1 (by simpa using h)

lemma fromEntries_nodup_keys (l : List (String × OFCEvent)) :
    ((fromEntries l).map Prod.fst).Nodup :=
  nodup_foldl_upsert l [] (by simp)

lemma mergeOne_fst (m : List (String × OFCEvent)) (p : String × OFCEvent) :
    (mergeOne m p).map Prod.fst = m.map Prod.fst := by
  unfold mergeOne
  cases h : List.lookup p.1 m with
  | none => rfl
  | some e =>
      cases e with
      | rrule r =>
          cases hp : p.2 with
          | single s =>
              have := fst_map_set m p.1
                (OFCEvent.rrule { r with skipDates := r.skipDates ++ [s.date] })
              exact this
          | rrule _ => rfl
      | single s => rfl

lemma lookup_mergeOne_ne (m : List (String × OFCEvent)) (p : String × OFCEvent)
    (k : String) (h : k ≠ p.1) :
    List.lookup k (mergeOne m p) = List.lookup k m := by
  unfold mergeOne
  cases hl : List.lookup p.1 m with
  | none => rfl
  | some e =>
      cases e with
      | rrule r =>
          cases hp : p.2 with
          | single s =>
              exact lookup_map_set_ne m p.1 k
                (OFCEvent.rrule { r with skipDates := r.skipDates ++ [s.date] }) h
          | rrule _ => rfl
      | single s => rfl

lemma mem_of_lookup_eq_some (m : List (String × OFCEvent)) (k : String) (v : OFCEvent)
    (h : List.lookup k m = some v) : (k, v) ∈ m := by
  induction m with
  | nil => simp [List.lookup] at h
  | cons q m ih =>
      obtain ⟨a, b⟩ := q
      by_cases hk : k = a
      · subst hk
        rw [lookup_cons_self] at h
        injection h with h
        subst h
        exact List.mem_cons_self _ _
      · rw [lookup_cons_ne hk] at h
        exact List.mem_cons_of_mem _ (ih h)

lemma filterMap_of_accepting (v : OFCEvent → Option OFCEvent)
    (hv : ∀ e, v e = some e) (l : List OFCEvent) : l.filterMap v = l := by
  induction l with
  | nil => rfl
  | cons e l ih => simp [List.filterMap_cons, hv e, ih]

lemma lookup_mergeOne_pres (m : List (String × OFCEvent)) (p : String × OFCEvent)
    (u : String) (r : RecurringEvent)
    (hu : List.lookup u m = some (OFCEvent.rrule r)) :
    ∃ r', List.lookup u (mergeOne m p) = some (OFCEvent.rrule r')
      ∧ ∃ ds, r'.skipDates = r.skipDates ++ ds := by
  by_cases hp : u = p.1
  · subst hp
    unfold mergeOne
    rw [hu]
    cases hp2 : p.2 with
    | single s =>
        refine ⟨{ r with skipDates := r.skipDates ++ [s.date] }, ?_, [s.date], rfl⟩
        exact lookup_map_set m p.1 _ (by rw [hu]; rfl)
    | rrule r2 => exact ⟨r, hu, [], by simp⟩
  · rw [lookup_mergeOne_ne m p u hp]
    exact ⟨r, hu, [], by simp⟩

lemma lookup_foldl_mergeOne_pres (l : List (String × OFCEvent)) :
    ∀ (m : List (String × OFCEvent)) (u : String) (r : RecurringEvent),
      List.lookup u m = some (OFCEvent.rrule r) →
      ∃ r', List.lookup u (l.foldl mergeOne m) = some (OFCEvent.rrule r')
        ∧ ∃ ds, r'.skipDates = r.skipDates ++ ds := by
  induction l with
  | nil => intro m u r hu; exact ⟨r, hu, [], by simp⟩
  | cons p l ih =>
      intro m u r hu
      simp only [List.foldl_cons]
      obtain ⟨r1, h1, ds1, hds1⟩ := lookup_mergeOne_pres m p u r hu
      obtain ⟨r2, h2, ds2, hds2⟩ := ih (mergeOne m p) u r1 h1
      exact ⟨r2, h2, ds1 ++ ds2, by rw [hds2, hds1, List.append_assoc]⟩

lemma lookup_mergeOne_hit (m : List (String × OFCEvent)) (u : String)
    (r : RecurringEvent) (s : SingleEvent)
    (hu : List.lookup u m = some (OFCEvent.rrule r)) :
    List.lookup u (mergeOne m (u, OFCEvent.single s))
      = some (OFCEvent.rrule { r with skipDates := r.skipDates ++ [s.date] }) := by
  unfold mergeOne
  simp only
  rw [hu]
  exact lookup_map_set m u _ (by rw [hu]; rfl)

lemma fst_foldl_mergeOne (l : List (String × OFCEvent)) :
    ∀ m : List (String × OFCEvent),
      ((l.foldl mergeOne m).map Prod.fst) = m.map Prod.fst := by
  induction l with
  | nil => intro m; rfl
  | cons p l ih =>
      intro m
      simp only [List.foldl_cons]
      rw [ih, mergeOne_fst]

lemma lookup_none_of_same_fst (m m' : List (String × OFCEvent)) (k : String)
    (hfst : m'.map Prod.fst = m.map Prod.fst)
    (h : List.lookup k m = none) : List.lookup k m' = none := by
  rw [lookup_none_iff] at h ⊢
  intro p hp
  have : p.1 ∈ m.map Prod.fst := by
    rw [← hfst]
    exact List.mem_map_of_mem Prod.fst hp
  simp only [List.mem_map] at this
  obtain ⟨q, hq, hfq⟩ := this
  rw [← hfq]
  exact h q hq

lemma mergeOne_skip (m : List (String × OFCEvent)) (p : String × OFCEvent)
    (h : List.lookup p.1 m = none) : mergeOne m p = m := by
  unfold mergeOne
  rw [h]

/-- C7: a malformed top-level parse aborts the whole call with the error and
no partial output (and no registry change), while a successful parse always
returns `ok`; a VEVENT whose start or end instant does not resolve is
excluded from all further processing — running the pipeline on the input
with those VEVENTs already removed yields the same output. -/
theorem c7_error_isolation (env : Env) (v : OFCEvent → Option OFCEvent) :
    (∀ s, getEventsFromICS env v (Except.error s) = (Except.error s, env))
    ∧ (∀ cal, (getEventsFromICS env v (Except.ok cal)).1
        = Except.ok ((processICS env v cal).1))
    ∧ (∀ cal, (processICS env v cal).1
        = (processICS env v { cal with vevents := filteredEvents env cal }).1) := by
  refine ⟨fun s => rfl, fun cal => rfl, fun cal => ?_⟩
  have hreg : regOf env { cal with vevents := filteredEvents env cal } = regOf env cal := rfl
  have key : ∀ (l : List ICalEvent) (p : ICalEvent → Bool),
      (List.filter p l).filter p = List.filter p l := by
    intro l p
    simp [List.filter_filter]
  have hf : filteredEvents env { cal with vevents := filteredEvents env cal }
      = filteredEvents env cal := key cal.vevents _
  simp only [processICS, mergedPairs, basePairs, basePairsRaw, exPairs, hreg, hf]

lemma processICS_congr (env1 env2 : Env) (v : OFCEvent → Option OFCEvent) (cal : ICal)
    (h : regOf env1 cal = regOf env2 cal) :
    processICS env1 v cal = processICS env2 v cal := by
  simp only [processICS, mergedPairs, basePairs, basePairsRaw, exPairs, filteredEvents, h]

/-- C8: converting the same parsed input twice is idempotent, including the
process-wide timezone registry: the second call, run in the environment the
first call left behind, returns the same result and the same environment. -/
theorem c8_idempotent (env : Env) (v : OFCEvent → Option OFCEvent)
    (inp : Except String ICal) :
    getEventsFromICS ((getEventsFromICS env v inp).2) v inp
      = getEventsFromICS env v inp := by
  cases inp with
  | error s => rfl
  | ok cal =>
      have hreg : regOf (regOf env cal) cal = regOf env cal := by
        simp only [regOf]
        rw [registerAll_idem]
      have hp := processICS_congr (regOf env cal) env v cal hreg
      show (Except.ok (processICS (regOf env cal) v cal).1,
              (processICS (regOf env cal) v cal).2)
          = (Except.ok (processICS env v cal).1, (processICS env v cal).2)
      rw [hp]

/-- C4 counterexample: in `calC4x` the override's UID matches a base event
that converted to Recurring, but the override carries its own RRULE and so
converts to `rrule`, not `single`: the merge is skipped (every `skipDates`
in the output is empty, so the base's exclusion list does not contain the
override's date) and no standalone single-occurrence record appears. -/
theorem c4_counterexample :
    (match List.lookup ("u") (basePairs envZero calC4x) with
      | some (OFCEvent.rrule _) => true
      | _ => false) = true
    ∧ (exPairs envZero calC4x).map Prod.fst = [("u" : String)]
    ∧ (processICS envZero (fun e => some e) calC4x).1.map skipDatesOf = [[], []]
    ∧ (processICS envZero (fun e => some e) calC4x).1.map isSingleEvt = [false, false] := by
  decide

/-- C4 amended: for an override that converted to `single` and whose UID
maps to a base event that converted to Recurring, after reconciliation the
base record's `skipDates` contains the override's normalized date, the base
record and the override's own standalone single record both appear in the
output (for an accepting validator), and the output is exactly the base
records followed by the override records with no further sorting. -/
theorem c4_override_merge (env : Env) (v : OFCEvent → Option OFCEvent) (cal : ICal)
    (u : String) (r0 : RecurringEvent) (s : SingleEvent)
    (hv : ∀ e, v e = some e)
    (hbase : List.lookup u (basePairs env cal) = some (OFCEvent.rrule r0))
    (hov : (u, OFCEvent.single s) ∈ exPairs env cal) :
    (∃ r1, List.lookup u (mergedPairs env cal) = some (OFCEvent.rrule r1)
        ∧ s.date ∈ r1.skipDates
        ∧ OFCEvent.rrule r1 ∈ (processICS env v cal).1)
    ∧ OFCEvent.single s ∈ (processICS env v cal).1
    ∧ (processICS env v cal).1
        = (mergedPairs env cal).map Prod.snd ++ (exPairs env cal).map Prod.snd := by
  have hout : (processICS env v cal).1
      = (mergedPairs env cal).map Prod.snd ++ (exPairs env cal).map Prod.snd :=
    filterMap_of_accepting v hv _
  obtain ⟨l₁, l₂, hsplit⟩ := List.append_of_mem hov
  have hm : mergedPairs env cal
      = l₂.foldl mergeOne
          (mergeOne (l₁.foldl mergeOne (basePairs env cal)) (u, OFCEvent.single s)) := by
    rw [mergedPairs, hsplit, List.foldl_append, List.foldl_cons]
  obtain ⟨r1, h1, ds1, hds1⟩ :=
    lookup_foldl_mergeOne_pres l₁ (basePairs env cal) u r0 hbase
  have h2 := lookup_mergeOne_hit _ u r1 s h1
  obtain ⟨r3, h3, ds3, hds3⟩ := lookup_foldl_mergeOne_pres l₂ _ u _ h2
  have hmem : s.date ∈ r3.skipDates := by
    rw [hds3]
    simp
  have hlook : List.lookup u (mergedPairs env cal) = some (OFCEvent.rrule r3) := by
    rw [hm]
    exact h3
  refine ⟨⟨r3, hlook, hmem, ?_⟩, ?_, hout⟩
  · rw [hout]
    exact List.mem_append_left _
      (List.mem_map_of_mem Prod.snd (mem_of_lookup_eq_some _ u _ hlook))
  · rw [hout]
    exact List.mem_append_right _ (List.mem_map_of_mem Prod.snd hov)

/-- C4 witness: `c4_override_merge` evaluated on a concrete base plus a
plain override one day later: the override's standalone record is in the
output. -/
theorem c4_witness :
    OFCEvent.single sC4w ∈ (processICS envZero (fun e => some e) calC4w).1 :=
  (c4_override_merge envZero (fun e => some e) calC4w "u" rC4w sC4w
    (fun e => rfl) (by decide) (by decide)).2.1

/-- C6 counterexample: in `calC6x` the lone override matches no base event;
no error is raised and nothing merges, but the override is NOT dropped — it
appears in the output as its own standalone single record. -/
theorem c6_counterexample :
    List.lookup ("b") (basePairs envZero calC6x) = none
    ∧ (processICS envZero (fun e => some e) calC6x).1 = [OFCEvent.single sC6x] := by
  decide

/-- C6 amended: for an override whose UID matches no base event,
reconciliation has no merge effect (folding the overrides with that one
removed gives the same merged base map), no error is raised (the call still
returns `ok`), and the override is not dropped: it still appears in the
output as a standalone record (for an accepting validator). -/
theorem c6_orphan_override (env : Env) (v : OFCEvent → Option OFCEvent) (cal : ICal)
    (u : String) (ev : OFCEvent)
    (hv : ∀ e, v e = some e)
    (hnone : List.lookup u (basePairs env cal) = none) :
    (∀ l₁ l₂, exPairs env cal = l₁ ++ (u, ev) :: l₂ →
      mergedPairs env cal = (l₁ ++ l₂).foldl mergeOne (basePairs env cal))
    ∧ ((u, ev) ∈ exPairs env cal → ev ∈ (processICS env v cal).1)
    ∧ (getEventsFromICS env v (Except.ok cal)).1
        = Except.ok ((processICS env v cal).1) := by
  refine ⟨fun l₁ l₂ hsplit => ?_, fun hov => ?_, rfl⟩
  · have hn1 : List.lookup u (l₁.foldl mergeOne (basePairs env cal)) = none :=
      lookup_none_of_same_fst (basePairs env cal)
        (l₁.foldl mergeOne (basePairs env cal)) u
        (fst_foldl_mergeOne l₁ (basePairs env cal)) hnone
    rw [mergedPairs, hsplit, List.foldl_append, List.foldl_cons,
      mergeOne_skip _ _ hn1, ← List.foldl_append]
  · have hout : (processICS env v cal).1
        = (mergedPairs env cal).map Prod.snd ++ (exPairs env cal).map Prod.snd :=
      filterMap_of_accepting v hv _
    rw [hout]
    exact List.mem_append_right _ (List.mem_map_of_mem Prod.snd hov)

/-- C6 witness: `c6_orphan_override` evaluated on a base `"a"` plus an
orphan override `"b"`: the orphan's record is in the output. -/
theorem c6_witness :
    OFCEvent.single sC6w ∈ (processICS envZero (fun e => some e) calC6w).1 :=
  (c6_orphan_override envZero (fun e => some e) calC6w "b" (OFCEvent.single sC6w)
    (fun e => rfl) (by decide)).2.1 (by decide)

/-- C9: when several base VEVENTs share a UID, the base map holds exactly
one entry per UID (keys are nodup) whose value is the conversion of the
LAST-encountered base event with that UID (`lastBase`), and a reconciliation
step only ever touches the entry with its own UID, so overrides merge into
the last-encountered base event only. -/
theorem c9_duplicate_uid (env : Env) (cal : ICal) (u : String) :
    List.lookup u (basePairs env cal) = lastBase (basePairsRaw env cal) u
    ∧ ((basePairs env cal).map Prod.fst).Nodup
    ∧ (∀ m p k, k ≠ p.1 → List.lookup k (mergeOne m p) = List.lookup k m)
    ∧ (∀ m p, (mergeOne m p).map Prod.fst = m.map Prod.fst) :=
  ⟨fromEntries_lookup _ u, fromEntries_nodup_keys _,
    fun m p k h => lookup_mergeOne_ne m p k h, fun m p => mergeOne_fst m p⟩

/-- C9 witness: `c9_duplicate_uid` instantiated concretely, including the
locality conjunct discharged at the key `"a"` against an override keyed
`"b"`. -/
theorem c9_witness :
    List.lookup ("u") (basePairs envZero calC9w)
      = lastBase (basePairsRaw envZero calC9w) ("u")
    ∧ List.lookup ("a") (mergeOne [] (("b"), evC9w))
      = List.lookup ("a") ([] : List (String × OFCEvent)) :=
  ⟨(c9_duplicate_uid envZero calC9w "u").1,
    (c9_duplicate_uid envZero calC9w "u").2.2.1 [] ("b", evC9w) "a" (by decide)⟩

end ICS
